import Mathlib

/-!
Verification of the typed zero-copy layer (heed) against its specification.

The development shallowly embeds the three analysed source files:

* `src/src/types/unaligned_slice.rs` — the `UnalignedSlice<T>` codec.
  An element of a Rust type `T` bound by `AsBytes + FromBytes + Unaligned + Copy`
  is identified with its byte representation: `FromBytes` makes every byte
  pattern of length `size_of::<T>()` a valid element, `AsBytes` (padding-free)
  makes those bytes the element's exact representation, and `Unaligned` removes
  every alignment requirement.  A slice of `T` is therefore a `List (List Nat)`
  whose members all have length `size_of::<T>()`, and the element type itself is
  represented by that size alone.

* `src/heed/src/mdb/lmdb_flags.rs` — the four bit-flag vocabularies.

* `src/heed/examples/cursor-append.rs` — the append fast path scenario.

Engine behaviour (LMDB itself) and the numeric `MDB_*` constants live outside
the analysed sources; definitions for them are modelled from the spec and are
marked as such in their doc comments.
-/

/-- Result of running a piece of Rust code that may panic: it either panics or
returns a value.  Used to embed `bytes_decode`, whose underlying layout check
contains both a documented assertion and a `%` by the element size. -/
inductive RustOutcome (α : Type) where
  | panics : RustOutcome α
  | returns : α → RustOutcome α
  deriving DecidableEq

/-- Fuel-indexed splitting of a byte list into consecutive chunks of `sz` bytes.
The fuel only makes the recursion structural; with `fuel ≥ bytes.length` and
`sz > 0` it never runs out.  This is the reinterpretation of a byte buffer as a
`&[T]` performed by `LayoutVerified::into_slice`. -/
def chunkBy (sz : Nat) : Nat → List Nat → List (List Nat)
  | _, [] => []
  | 0, _ :: _ => []
  | fuel + 1, b :: rest => ((b :: rest).take sz) :: chunkBy sz fuel ((b :: rest).drop sz)

/-- Reinterpretation of `bytes` as the list of its consecutive `sz`-byte chunks. -/
def chunkExact (sz : Nat) (bytes : List Nat) : List (List Nat) :=
  chunkBy sz bytes.length bytes

/-- Embedding of `UnalignedSlice::<T>::bytes_encode` (unaligned_slice.rs lines
10-16): `Some(Cow::Borrowed(<[T] as AsBytes>::as_bytes(item)))`.  Reinterpreting
a slice of padding-free elements as bytes is the concatenation of the elements'
byte representations; the operation is unconditional. -/
def bytes_encode (xs : List (List Nat)) : Option (List Nat) :=
  some xs.flatten

/-- Embedding of `LayoutVerified::<_, [T]>::new_slice_unaligned(bytes)` for a
`T` of size `sz`, as called by `bytes_decode` (unaligned_slice.rs line 22).
The verifier is the zerocopy dependency of the repository, outside the analysed
sources; its documented contract is: the call panics when `T` is zero-sized
(an explicit assertion — and `bytes.len() % size_of::<T>()` would divide by
zero regardless), returns `None` when `bytes.len()` is not a multiple of
`size_of::<T>()`, and otherwise returns the buffer reinterpreted as a slice of
`T` (`Unaligned` removes the alignment check, `FromBytes` the validity check). -/
def new_slice_unaligned (sz : Nat) (bytes : List Nat) : RustOutcome (Option (List (List Nat))) :=
  if sz = 0 then RustOutcome.panics
  else if bytes.length % sz ≠ 0 then RustOutcome.returns none
  else RustOutcome.returns (some (chunkExact sz bytes))

/-- Embedding of `UnalignedSlice::<T>::bytes_decode` (unaligned_slice.rs lines
18-24): `new_slice_unaligned(bytes).map(into_slice)`, where `into_slice` is the
identity on the underlying element list in this embedding. -/
def bytes_decode (sz : Nat) (bytes : List Nat) : RustOutcome (Option (List (List Nat))) :=
  new_slice_unaligned sz bytes

/-- Modelled from the spec: numeric value of the engine constant `MDB_FIXEDMAP`
(the `lmdb_master_sys` crate providing the `ffi::MDB_*` constants referenced by
lmdb_flags.rs is not among the analysed sources; spec section 6 requires this
layer's flag values to match the engine's constants bit-for-bit, and these are
the engine's documented values). -/
def MDB_FIXEDMAP : Nat := 0x01

/-- Modelled from the spec: engine constant, see `MDB_FIXEDMAP`. -/
def MDB_NOSUBDIR : Nat := 0x4000

/-- Modelled from the spec: engine constant, see `MDB_FIXEDMAP`. -/
def MDB_NOSYNC : Nat := 0x10000

/-- Modelled from the spec: engine constant, see `MDB_FIXEDMAP`. -/
def MDB_RDONLY : Nat := 0x20000

/-- Modelled from the spec: engine constant, see `MDB_FIXEDMAP`. -/
def MDB_NOMETASYNC : Nat := 0x40000

/-- Modelled from the spec: engine constant, see `MDB_FIXEDMAP`. -/
def MDB_WRITEMAP : Nat := 0x80000

/-- Modelled from the spec: engine constant, see `MDB_FIXEDMAP`. -/
def MDB_MAPASYNC : Nat := 0x100000

/-- Modelled from the spec: engine constant, see `MDB_FIXEDMAP`. -/
def MDB_NOTLS : Nat := 0x200000

/-- Modelled from the spec: engine constant, see `MDB_FIXEDMAP`. -/
def MDB_NOLOCK : Nat := 0x400000

/-- Modelled from the spec: engine constant, see `MDB_FIXEDMAP`. -/
def MDB_NORDAHEAD : Nat := 0x800000

/-- Modelled from the spec: engine constant, see `MDB_FIXEDMAP`. -/
def MDB_NOMEMINIT : Nat := 0x1000000

/-- Modelled from the spec: engine constant, see `MDB_FIXEDMAP`. -/
def MDB_REVERSEKEY : Nat := 0x02

/-- Modelled from the spec: engine constant, see `MDB_FIXEDMAP`. -/
def MDB_DUPSORT : Nat := 0x04

/-- Modelled from the spec: engine constant, see `MDB_FIXEDMAP`. -/
def MDB_INTEGERKEY : Nat := 0x08

/-- Modelled from the spec: engine constant, see `MDB_FIXEDMAP`. -/
def MDB_DUPFIXED : Nat := 0x10

/-- Modelled from the spec: engine constant, see `MDB_FIXEDMAP`. -/
def MDB_INTEGERDUP : Nat := 0x20

/-- Modelled from the spec: engine constant, see `MDB_FIXEDMAP`. -/
def MDB_REVERSEDUP : Nat := 0x40

/-- Modelled from the spec: engine constant, see `MDB_FIXEDMAP`. -/
def MDB_CREATE : Nat := 0x40000

/-- Modelled from the spec: engine constant, see `MDB_FIXEDMAP`. -/
def MDB_NOOVERWRITE : Nat := 0x10

/-- Modelled from the spec: engine constant, see `MDB_FIXEDMAP`. -/
def MDB_NODUPDATA : Nat := 0x20

/-- Modelled from the spec: engine constant, see `MDB_FIXEDMAP`. -/
def MDB_APPEND : Nat := 0x20000

/-- Modelled from the spec: engine constant, see `MDB_FIXEDMAP`. -/
def MDB_APPENDDUP : Nat := 0x40000

/-- Values of the `EnvFlags` constants (lmdb_flags.rs lines 4-33), in
declaration order. -/
def EnvFlags.values : List Nat :=
  [MDB_FIXEDMAP, MDB_NOSUBDIR, MDB_NOSYNC, MDB_RDONLY, MDB_NOMETASYNC,
   MDB_WRITEMAP, MDB_MAPASYNC, MDB_NOTLS, MDB_NOLOCK, MDB_NORDAHEAD, MDB_NOMEMINIT]

/-- Values of the `AllDatabaseFlags` constants (lmdb_flags.rs lines 35-56), in
declaration order: REVERSE_KEY, DUP_SORT, INTEGER_KEY, DUP_FIXED, INTEGER_DUP,
REVERSE_DUP, CREATE. -/
def AllDatabaseFlags.values : List Nat :=
  [MDB_REVERSEKEY, MDB_DUPSORT, MDB_INTEGERKEY, MDB_DUPFIXED,
   MDB_INTEGERDUP, MDB_REVERSEDUP, MDB_CREATE]

/-- Values of the user-specifiable `DatabaseFlags` constants (lmdb_flags.rs
lines 58-381), in declaration order: REVERSE_KEY, DUP_SORT, INTEGER_KEY,
DUP_FIXED, INTEGER_DUP, REVERSE_DUP.  `CREATE` is deliberately absent from this
struct in the source. -/
def DatabaseFlags.values : List Nat :=
  [MDB_REVERSEKEY, MDB_DUPSORT, MDB_INTEGERKEY, MDB_DUPFIXED,
   MDB_INTEGERDUP, MDB_REVERSEDUP]

/-- Value of `PutFlags::NO_DUP_DATA` (lmdb_flags.rs line 393). -/
def PutFlags.NO_DUP_DATA : Nat := MDB_NODUPDATA

/-- Value of `PutFlags::NO_OVERWRITE` (lmdb_flags.rs line 399). -/
def PutFlags.NO_OVERWRITE : Nat := MDB_NOOVERWRITE

/-- Value of `PutFlags::APPEND` (lmdb_flags.rs line 404). -/
def PutFlags.APPEND : Nat := MDB_APPEND

/-- Value of `PutFlags::APPEND_DUP` (lmdb_flags.rs line 409). -/
def PutFlags.APPEND_DUP : Nat := MDB_APPENDDUP

/-- Values of the `PutFlags` constants (lmdb_flags.rs lines 383-411), in
declaration order. -/
def PutFlags.values : List Nat :=
  [PutFlags.NO_DUP_DATA, PutFlags.NO_OVERWRITE, PutFlags.APPEND, PutFlags.APPEND_DUP]

/-- Value of `DeleteFlags::NO_DUP_DATA` (lmdb_flags.rs line 422). -/
def DeleteFlags.NO_DUP_DATA : Nat := MDB_NODUPDATA

/-- Values of the `DeleteFlags` constants (lmdb_flags.rs lines 413-424). -/
def DeleteFlags.values : List Nat :=
  [DeleteFlags.NO_DUP_DATA]

/-- Names of the database flags that appear anywhere in lmdb_flags.rs. -/
inductive DbFlagName where
  | REVERSE_KEY | DUP_SORT | INTEGER_KEY | DUP_FIXED | INTEGER_DUP | REVERSE_DUP | CREATE
  deriving DecidableEq

/-- Named members of the user-specifiable `DatabaseFlags` struct (lmdb_flags.rs
lines 58-381): the struct the `database_options().flags(..)` API accepts.  Its
declared constants are REVERSE_KEY, DUP_SORT, INTEGER_KEY, DUP_FIXED,
INTEGER_DUP and REVERSE_DUP; the source comment on lines 60-61 restricts the
struct to exactly these. -/
def DatabaseFlags.names : List DbFlagName :=
  [DbFlagName.REVERSE_KEY, DbFlagName.DUP_SORT, DbFlagName.INTEGER_KEY,
   DbFlagName.DUP_FIXED, DbFlagName.INTEGER_DUP, DbFlagName.REVERSE_DUP]

/-- Named members of the full `AllDatabaseFlags` struct (lmdb_flags.rs lines
35-56), which additionally contains CREATE. -/
def AllDatabaseFlags.names : List DbFlagName :=
  [DbFlagName.REVERSE_KEY, DbFlagName.DUP_SORT, DbFlagName.INTEGER_KEY,
   DbFlagName.DUP_FIXED, DbFlagName.INTEGER_DUP, DbFlagName.REVERSE_DUP,
   DbFlagName.CREATE]

/-- Membership test for a power of two, used to state the flag-bit claims. -/
def isPow2 (n : Nat) : Bool :=
  (List.range 32).any fun k => n == 2 ^ k

/-- Comparison a table opened with `REVERSE_KEY` uses between two byte-string
keys: byte-lexicographic comparison of the reversed keys (lmdb_flags.rs lines
40-41 and 65-111). -/
def revKeyLt (a b : List Nat) : Prop :=
  a.reverse < b.reverse

instance (a b : List Nat) : Decidable (revKeyLt a b) :=
  inferInstanceAs (Decidable (a.reverse < b.reverse))

/-- Modelled from the spec: the engine's ordered table (the B-tree itself is not
among the analysed sources).  A table is the list of its keys in comparator
order; `put` inserts a key at its comparator position, replacing an equal key,
as the engine does for a table without `DUP_SORT`. -/
def revInsert (k : List Nat) : List (List Nat) → List (List Nat)
  | [] => [k]
  | x :: xs =>
    if revKeyLt k x then k :: x :: xs
    else if revKeyLt x k then x :: revInsert k xs
    else k :: xs

namespace ReverseKeyDb

/-- Modelled from the spec: `put` on a `REVERSE_KEY` table. -/
def put (t : List (List Nat)) (k : List Nat) : List (List Nat) :=
  revInsert k t

/-- Modelled from the spec: the table obtained by `put`-ing the given keys, in
order, into an empty `REVERSE_KEY` table. -/
def putAll (ks : List (List Nat)) : List (List Nat) :=
  ks.foldl put []

/-- Modelled from the spec: `iter` walks the table ascending in its comparator
order, yielding the stored keys. -/
def iter (t : List (List Nat)) : List (List Nat) :=
  t

/-- Modelled from the spec: `rev_iter` walks the same entries in the opposite
direction. -/
def rev_iter (t : List (List Nat)) : List (List Nat) :=
  t.reverse

end ReverseKeyDb

/-- Key "bonjour" as bytes (doc-test of `DatabaseFlags::REVERSE_KEY`). -/
def bonjourB : List Nat := [98, 111, 110, 106, 111, 117, 114]

/-- Key "hello" as bytes (doc-test of `DatabaseFlags::REVERSE_KEY`). -/
def helloB : List Nat := [104, 101, 108, 108, 111]

/-- Key "holla" as bytes (doc-test of `DatabaseFlags::REVERSE_KEY`). -/
def hollaB : List Nat := [104, 111, 108, 108, 97]

/-- Outcome of a `put` through the append fast path. -/
inductive AppendResult where
  | ok : List (List Nat) → AppendResult
  | keyExist : AppendResult
  deriving DecidableEq

/-- Modelled from the spec: `put_current_with_options(PutFlags::APPEND, key, _)`
(the engine's append-mode `mdb_cursor_put` is not among the analysed sources).
The caller asserts the key is strictly greater than every existing key; the
engine appends when the assertion holds and reports the `KeyExist`-class error,
writing nothing, when it does not (spec sections 4.4 and 8; example
cursor-append.rs lines 32-38). -/
def putAppend (t : List (List Nat)) (k : List Nat) : AppendResult :=
  if ∀ x ∈ t, x < k then AppendResult.ok (t ++ [k]) else AppendResult.keyExist

/-- Key "aaaa" as bytes (cursor-append.rs line 34). -/
def aaaaB : List Nat := [97, 97, 97, 97]

/-- Key "abcd" as bytes (cursor-append.rs line 35). -/
def abcdB : List Nat := [97, 98, 99, 100]

/-- Key "bcde" as bytes (cursor-append.rs line 36). -/
def bcdeB : List Nat := [98, 99, 100, 101]

/-- Modelled from the spec: `put` on a `DUP_SORT` table (the engine's duplicate
handling is not among the analysed sources).  The table is its flat list of
(key, value) entries sorted by key and then by value; a plain `put` inserts the
pair at its sorted position and keeps an already-present pair once (spec
sections 4.2-4.3; doc-test of `DatabaseFlags::DUP_SORT`, lmdb_flags.rs lines
112-171). -/
def dupInsert (p : Nat × Nat) : List (Nat × Nat) → List (Nat × Nat)
  | [] => [p]
  | q :: qs =>
    if p.1 < q.1 ∨ (p.1 = q.1 ∧ p.2 < q.2) then p :: q :: qs
    else if p = q then q :: qs
    else q :: dupInsert p qs

/-- Modelled from the spec: `get_duplicates(key)` on a `DUP_SORT` table returns
the (key, value) entries for that key in their sort order, or `None` when the
key is absent. -/
def get_duplicates (t : List (Nat × Nat)) (k : Nat) : Option (List (Nat × Nat)) :=
  match t.filter (fun q => q.1 == k) with
  | [] => none
  | l => some l

/-- Modelled from the spec: `delete_one_duplicate(key, value)` removes exactly
the one matching pair when present and reports whether it existed. -/
def delete_one_duplicate (t : List (Nat × Nat)) (k v : Nat) : Bool × List (Nat × Nat) :=
  if (k, v) ∈ t then (true, t.erase (k, v)) else (false, t)

/-- Modelled from the spec: the `DUP_SORT` table built by the doc-test of
`DatabaseFlags::DUP_SORT` (lmdb_flags.rs lines 138-145), inserting its eight
pairs in program order into an empty table. -/
def dupTable : List (Nat × Nat) :=
  [(68, 120), (68, 121), (68, 122), (68, 123), (92, 32),
   (35, 120), (0, 120), (42, 120)].foldl (fun t p => dupInsert p t) []

theorem flatten_length_uniform (sz : Nat) (xs : List (List Nat))
    (hx : ∀ x ∈ xs, x.length = sz) : xs.flatten.length = xs.length * sz := by
  induction xs with
  | nil => simp
  | cons x t ih =>
    have hxl : x.length = sz := hx x (List.mem_cons_self x t)
    have ht := ih (fun y hy => hx y (List.mem_cons_of_mem x hy))
    simp only [List.flatten_cons, List.length_append, List.length_cons, hxl, ht, Nat.succ_mul]
    omega

theorem chunkBy_flatten (sz : Nat) (hsz : 0 < sz) :
    ∀ (xs : List (List Nat)) (fuel : Nat), xs.flatten.length ≤ fuel →
      (∀ x ∈ xs, x.length = sz) → chunkBy sz fuel xs.flatten = xs := by
  intro xs
  induction xs with
  | nil =>
    intro fuel _ _
    cases fuel <;> simp [chunkBy]
  | cons x t ih =>
    intro fuel hfuel hlen
    have hx : x.length = sz := hlen x (List.mem_cons_self x t)
    cases x with
    | nil => simp at hx; omega
    | cons b rest =>
      have hflat : ((b :: rest) :: t).flatten = b :: (rest ++ t.flatten) := by simp
      cases fuel with
      | zero =>
        exfalso
        have hpos : 0 < ((b :: rest) :: t).flatten.length := by simp
        omega
      | succ f =>
        rw [hflat]
        show ((b :: (rest ++ t.flatten)).take sz) :: chunkBy sz f ((b :: (rest ++ t.flatten)).drop sz)
            = (b :: rest) :: t
        have hsplit : b :: (rest ++ t.flatten) = (b :: rest) ++ t.flatten := by simp
        have htake : (b :: (rest ++ t.flatten)).take sz = b :: rest := by
          rw [hsplit, ← hx]; exact List.take_left _ _
        have hdrop : (b :: (rest ++ t.flatten)).drop sz = t.flatten := by
          rw [hsplit, ← hx]; exact List.drop_left _ _
        rw [htake, hdrop]
        have hfl : t.flatten.length ≤ f := by
          rw [hflat] at hfuel
          simp only [List.length_cons, List.length_append] at hfuel
          simp only [List.length_cons] at hx
          omega
        rw [ih f hfl (fun y hy => hlen y (List.mem_cons_of_mem _ hy))]

theorem mem_revInsert {y k : List Nat} :
    ∀ {t : List (List Nat)}, y ∈ revInsert k t → y = k ∨ y ∈ t := by
  intro t
  induction t with
  | nil =>
    intro h
    simp [revInsert] at h
    exact Or.inl h
  | cons x xs ih =>
    intro h
    simp only [revInsert] at h
    split at h
    · rcases List.mem_cons.mp h with h | h
      · exact Or.inl h
      · exact Or.inr h
    · split at h
      · rcases List.mem_cons.mp h with h | h
        · exact Or.inr (List.mem_cons.mpr (Or.inl h))
        · rcases ih h with h | h
          · exact Or.inl h
          · exact Or.inr (List.mem_cons.mpr (Or.inr h))
      · rcases List.mem_cons.mp h with h | h
        · exact Or.inl h
        · exact Or.inr (List.mem_cons.mpr (Or.inr h))

theorem revKeyLt_trans {a b c : List Nat} (h1 : revKeyLt a b) (h2 : revKeyLt b c) :
    revKeyLt a c :=
  lt_trans h1 h2

theorem revKeyLt_antisymm {a b : List Nat} (h1 : ¬ revKeyLt a b) (h2 : ¬ revKeyLt b a) :
    a = b :=
  List.reverse_injective (le_antisymm (not_lt.mp h2) (not_lt.mp h1))

theorem revInsert_sorted (k : List Nat) :
    ∀ (t : List (List Nat)), t.Pairwise revKeyLt → (revInsert k t).Pairwise revKeyLt := by
  intro t
  induction t with
  | nil =>
    intro _
    simp [revInsert]
  | cons x xs ih =>
    intro hp
    rcases List.pairwise_cons.mp hp with ⟨hx, hxs⟩
    simp only [revInsert]
    split
    · rename_i hkx
      refine List.pairwise_cons.mpr ⟨?_, hp⟩
      intro y hy
      rcases List.mem_cons.mp hy with rfl | hy
      · exact hkx
      · exact revKeyLt_trans hkx (hx y hy)
    · rename_i hkx
      split
      · rename_i hxk
        refine List.pairwise_cons.mpr ⟨?_, ih hxs⟩
        intro y hy
        rcases mem_revInsert hy with rfl | hy
        · exact hxk
        · exact hx y hy
      · rename_i hxk
        have hkeq : x = k := revKeyLt_antisymm hxk hkx
        subst hkeq
        exact List.pairwise_cons.mpr ⟨hx, hxs⟩

theorem putAll_sorted_aux :
    ∀ (ks : List (List Nat)) (t : List (List Nat)),
      t.Pairwise revKeyLt → (ks.foldl ReverseKeyDb.put t).Pairwise revKeyLt := by
  intro ks
  induction ks with
  | nil =>
    intro t ht
    simpa using ht
  | cons k ks ih =>
    intro t ht
    simp only [List.foldl_cons]
    exact ih _ (revInsert_sorted k t ht)

/-- C1 (counterexample).  The round-trip law as stated quantifies over every
element type satisfying `AsBytes + FromBytes + Unaligned + Copy`; a zero-sized
type satisfies these bounds (for example a field-less struct deriving them), and
for it the law fails: encoding the one-element slice `[[]]` yields the empty
byte string, and decoding that byte string panics in the layout verifier (its
documented zero-sized-type assertion; absent that, `0 % 0` in Rust) instead of
returning `Some [[]]`. -/
theorem unalignedSlice_roundtrip_fails_zero_size :
    bytes_encode [([] : List Nat)] = some []
    ∧ bytes_decode 0 [] ≠ RustOutcome.returns (some [[]])
    ∧ bytes_decode 0 [] = RustOutcome.panics := by
  refine ⟨rfl, by decide, rfl⟩

/-- C1 (amended).  For every element type of positive size `sz` satisfying the
codec's bounds and every slice `xs` of such elements, `bytes_decode` applied to
the bytes returned by `bytes_encode xs` returns `Some` of a slice element-wise
equal to `xs`. -/
theorem unalignedSlice_roundtrip (sz : Nat) (h : 0 < sz) (xs : List (List Nat))
    (hx : ∀ x ∈ xs, x.length = sz) :
    ∃ bs, bytes_encode xs = some bs
      ∧ bytes_decode sz bs = RustOutcome.returns (some xs) := by
  refine ⟨xs.flatten, rfl, ?_⟩
  have hsz : sz ≠ 0 := by omega
  have hmod : xs.flatten.length % sz = 0 := by
    rw [flatten_length_uniform sz xs hx]
    exact Nat.mul_mod_left _ _
  unfold bytes_decode new_slice_unaligned
  simp only [hsz, if_false, hmod, ne_eq, not_true_eq_false, ite_false, if_neg]
  simp only [chunkExact]
  rw [chunkBy_flatten sz h xs xs.flatten.length (le_refl _) hx]

/-- C1 (witness): the round trip at element size 1 on the slice `[[7], [9]]`. -/
theorem unalignedSlice_roundtrip_witness :
    0 < 1 ∧ (∀ x ∈ ([[7], [9]] : List (List Nat)), x.length = 1)
    ∧ ∃ bs, bytes_encode [[7], [9]] = some bs
        ∧ bytes_decode 1 bs = RustOutcome.returns (some [[7], [9]]) :=
  ⟨by decide, by decide, unalignedSlice_roundtrip 1 (by decide) [[7], [9]] (by decide)⟩

/-- C2 (counterexample).  For a zero-sized element type — which satisfies the
codec's bounds and whose padding-free, alignment-free layout is trivially
satisfiable — the stated success condition fails in both directions: the empty
input has length `0`, the only multiple of the element size `0`, yet decoding
panics instead of succeeding; and the input `[5]` is not a multiple of the
element size, yet decoding panics instead of returning `None`. -/
theorem bytes_decode_zero_size_breaks_none_contract :
    bytes_decode 0 [] ≠ RustOutcome.returns (some [])
    ∧ bytes_decode 0 [5] ≠ RustOutcome.returns none
    ∧ bytes_decode 0 [5] = RustOutcome.panics := by
  refine ⟨by decide, by decide, rfl⟩

/-- C2 (amended).  For every element type of positive size `sz` satisfying the
codec's bounds, `bytes_decode` succeeds (returns `Some`) exactly when
`bytes.length` is an exact multiple of `sz`, and for any other input it returns
`None` rather than faulting. -/
theorem bytes_decode_success_iff_multiple (sz : Nat) (h : 0 < sz) (bytes : List Nat) :
    ((∃ xs, bytes_decode sz bytes = RustOutcome.returns (some xs)) ↔ bytes.length % sz = 0)
    ∧ (bytes.length % sz ≠ 0 → bytes_decode sz bytes = RustOutcome.returns none) := by
  have hsz : sz ≠ 0 := by omega
  unfold bytes_decode new_slice_unaligned
  by_cases hm : bytes.length % sz = 0 <;> simp [hsz, hm]

/-- C2 (witness): element size 2 with the mis-sized three-byte input. -/
theorem bytes_decode_success_iff_multiple_witness :
    0 < 2
    ∧ (((∃ xs, bytes_decode 2 [1, 2, 3] = RustOutcome.returns (some xs))
          ↔ ([1, 2, 3] : List Nat).length % 2 = 0)
        ∧ (([1, 2, 3] : List Nat).length % 2 ≠ 0
          → bytes_decode 2 [1, 2, 3] = RustOutcome.returns none)) :=
  ⟨by decide, bytes_decode_success_iff_multiple 2 (by decide) [1, 2, 3]⟩

/-- C3 (counterexample).  `bytes_decode` is not panic-free for every element
type satisfying the codec's bounds including zero-sized ones: at element size
`0` (realisable by a field-less type deriving the bounds) it hits the layout
verifier's documented zero-sized-type panic — in Rust, `len % 0` would panic
even without the explicit assertion — on the two-byte input. -/
theorem bytes_decode_zero_size_panics :
    bytes_decode 0 [1, 2] = RustOutcome.panics := by
  rfl

/-- C3 (amended).  For every element type of positive size satisfying the
codec's bounds and every byte input, `bytes_decode` is total: it returns
(either `Some` or `None`) and never panics, in particular on truncated or
mis-sized inputs. -/
theorem bytes_decode_total (sz : Nat) (h : 0 < sz) (bytes : List Nat) :
    ∃ o, bytes_decode sz bytes = RustOutcome.returns o := by
  have hsz : sz ≠ 0 := by omega
  unfold bytes_decode new_slice_unaligned
  by_cases hm : bytes.length % sz = 0 <;> simp [hsz, hm]

/-- C3 (witness): element size 3 on the truncated two-byte input. -/
theorem bytes_decode_total_witness :
    0 < 3 ∧ ∃ o, bytes_decode 3 [1, 2] = RustOutcome.returns o :=
  ⟨by decide, bytes_decode_total 3 (by decide) [1, 2]⟩

/-- C8.  `bytes_encode` always succeeds: on every slice of elements of size
`sz` it returns `Some` of the element bytes laid end to end — the slice
reinterpreted as bytes — whose length is the element count times `sz`; it never
returns `None`. -/
theorem bytes_encode_total (sz : Nat) (xs : List (List Nat))
    (hx : ∀ x ∈ xs, x.length = sz) :
    bytes_encode xs = some xs.flatten ∧ xs.flatten.length = xs.length * sz :=
  ⟨rfl, flatten_length_uniform sz xs hx⟩

/-- C8 (witness): the two-element slice `[[1, 2], [3, 4]]` at element size 2. -/
theorem bytes_encode_total_witness :
    (∀ x ∈ ([[1, 2], [3, 4]] : List (List Nat)), x.length = 2)
    ∧ (bytes_encode [[1, 2], [3, 4]] = some ([[1, 2], [3, 4]] : List (List Nat)).flatten
        ∧ ([[1, 2], [3, 4]] : List (List Nat)).flatten.length
            = ([[1, 2], [3, 4]] : List (List Nat)).length * 2) :=
  ⟨by decide, bytes_encode_total 2 [[1, 2], [3, 4]] (by decide)⟩

/-- C4 (counterexample).  On the `REVERSE_KEY` table of the doc-test, `iter`
yields "holla", "hello", "bonjour" — exactly what the doc-test asserts — and
that sequence is not in descending order of the reversed bytes: its first key
"holla" is strictly below its last key "bonjour" under reversed-byte
comparison, so the order is ascending in the reversed bytes, not descending as
the claim states. -/
theorem reverse_key_iter_not_descending :
    ReverseKeyDb.iter (ReverseKeyDb.putAll [bonjourB, helloB, hollaB])
      = [hollaB, helloB, bonjourB]
    ∧ revKeyLt hollaB bonjourB
    ∧ ¬ revKeyLt bonjourB hollaB
    ∧ ¬ (ReverseKeyDb.iter (ReverseKeyDb.putAll [bonjourB, helloB, hollaB])).Pairwise
          (fun a b => revKeyLt b a) := by
  decide

/-- C4 (amended).  On a table opened with `REVERSE_KEY`, `iter` yields keys in
ascending order of the reversed bytes (comparison is byte-lexicographic on the
reversed key); in particular, after putting "bonjour", "hello", "holla" the
forward iteration order is "holla", "hello", "bonjour", and `rev_iter` yields
the exact reverse of `iter`. -/
theorem reverse_key_iter_ascending_reversed :
    (∀ ks, (ReverseKeyDb.iter (ReverseKeyDb.putAll ks)).Pairwise revKeyLt)
    ∧ ReverseKeyDb.iter (ReverseKeyDb.putAll [bonjourB, helloB, hollaB])
        = [hollaB, helloB, bonjourB]
    ∧ (∀ t, ReverseKeyDb.rev_iter t = (ReverseKeyDb.iter t).reverse) := by
  refine ⟨?_, by decide, fun t => rfl⟩
  intro ks
  exact putAll_sorted_aux ks [] (List.Pairwise.nil)

/-- C5.  Append contract: from the empty table, putting "aaaa", "abcd", "bcde"
in order through the append fast path succeeds at every call and leaves exactly
those keys in ascending order; putting a key not strictly greater than every
existing key with `APPEND` set fails with the `KeyExist` uniqueness/order error
(writing nothing), and a successful append always preserves ascending order. -/
theorem append_fast_path :
    putAppend [] aaaaB = AppendResult.ok [aaaaB]
    ∧ putAppend [aaaaB] abcdB = AppendResult.ok [aaaaB, abcdB]
    ∧ putAppend [aaaaB, abcdB] bcdeB = AppendResult.ok [aaaaB, abcdB, bcdeB]
    ∧ ([aaaaB, abcdB, bcdeB] : List (List Nat)).Pairwise (fun a b => a < b)
    ∧ putAppend [aaaaB, abcdB, bcdeB] abcdB = AppendResult.keyExist
    ∧ (∀ t k, ¬ (∀ x ∈ t, x < k) → putAppend t k = AppendResult.keyExist)
    ∧ (∀ t k u, t.Pairwise (fun a b => a < b) → putAppend t k = AppendResult.ok u
        → u.Pairwise (fun a b => a < b)) := by
  refine ⟨by decide, by decide, by decide, by decide, by decide, ?_, ?_⟩
  · intro t k hne
    simp [putAppend, hne]
  · intro t k u hs hok
    by_cases hall : ∀ x ∈ t, x < k
    · simp only [putAppend, if_pos hall, AppendResult.ok.injEq] at hok
      rw [← hok, List.pairwise_append]
      refine ⟨hs, List.pairwise_singleton _ _, ?_⟩
      intro x hx y hy
      rcases List.mem_singleton.mp hy with rfl
      exact hall x hx
    · simp [putAppend, hall] at hok

/-- C6.  `DUP_SORT` duplicate semantics on the doc-test data: after inserting
(68,120), (68,121), (68,122), (68,123), (92,32), (35,120), (0,120), (42,120)
into an empty `DUP_SORT` table, `get_duplicates 68` yields exactly (68,120),
(68,121), (68,122), (68,123) in that order; `delete_one_duplicate 68 121`
reports true, after which the same call yields (68,120), (68,122), (68,123),
and the entries of every other key are unaffected. -/
theorem dup_sort_duplicates :
    get_duplicates dupTable 68 = some [(68, 120), (68, 121), (68, 122), (68, 123)]
    ∧ (delete_one_duplicate dupTable 68 121).1 = true
    ∧ get_duplicates (delete_one_duplicate dupTable 68 121).2 68
        = some [(68, 120), (68, 122), (68, 123)]
    ∧ get_duplicates (delete_one_duplicate dupTable 68 121).2 92 = get_duplicates dupTable 92
    ∧ get_duplicates (delete_one_duplicate dupTable 68 121).2 35 = get_duplicates dupTable 35
    ∧ get_duplicates (delete_one_duplicate dupTable 68 121).2 0 = get_duplicates dupTable 0
    ∧ get_duplicates (delete_one_duplicate dupTable 68 121).2 42 = get_duplicates dupTable 42 := by
  decide

/-- C7 (counterexample).  `CREATE` is not a member of the user-specifiable
`DatabaseFlags` struct: the source deliberately restricts that struct to the
six key/duplicate ordering flags, and `CREATE` appears only in the internal
`AllDatabaseFlags` struct. -/
theorem create_not_user_specifiable :
    DbFlagName.CREATE ∉ DatabaseFlags.names
    ∧ DbFlagName.CREATE ∈ AllDatabaseFlags.names := by
  decide

/-- C7 (amended).  The user-specifiable database flag set provides the named
flags REVERSE_KEY, DUP_SORT, INTEGER_KEY, DUP_FIXED, INTEGER_DUP and
REVERSE_DUP; CREATE exists in the database flag vocabulary only as a member of
the internal `AllDatabaseFlags` set (it is applied by the `create` method, not
specifiable by the caller), which contains all seven flags. -/
theorem database_flags_vocabulary :
    DbFlagName.REVERSE_KEY ∈ DatabaseFlags.names
    ∧ DbFlagName.DUP_SORT ∈ DatabaseFlags.names
    ∧ DbFlagName.INTEGER_KEY ∈ DatabaseFlags.names
    ∧ DbFlagName.DUP_FIXED ∈ DatabaseFlags.names
    ∧ DbFlagName.INTEGER_DUP ∈ DatabaseFlags.names
    ∧ DbFlagName.REVERSE_DUP ∈ DatabaseFlags.names
    ∧ DbFlagName.CREATE ∉ DatabaseFlags.names
    ∧ (∀ f ∈ DatabaseFlags.names, f ∈ AllDatabaseFlags.names)
    ∧ DbFlagName.CREATE ∈ AllDatabaseFlags.names := by
  decide

/-- C9.  In each flag group (EnvFlags, AllDatabaseFlags with its
user-specifiable subset DatabaseFlags, PutFlags, DeleteFlags) every named
constant is a power of two, the constants within a group are pairwise distinct,
and distinct constants of a group share no bit — so flags combine losslessly
with bitwise OR and membership is tested with bitwise AND. -/
theorem flag_groups_power_of_two_distinct :
    (EnvFlags.values.all isPow2 = true ∧ EnvFlags.values.Nodup
      ∧ EnvFlags.values.Pairwise (fun a b => a &&& b = 0))
    ∧ (AllDatabaseFlags.values.all isPow2 = true ∧ AllDatabaseFlags.values.Nodup
      ∧ AllDatabaseFlags.values.Pairwise (fun a b => a &&& b = 0))
    ∧ (DatabaseFlags.values.all isPow2 = true ∧ DatabaseFlags.values.Nodup
      ∧ DatabaseFlags.values.Pairwise (fun a b => a &&& b = 0))
    ∧ (PutFlags.values.all isPow2 = true ∧ PutFlags.values.Nodup
      ∧ PutFlags.values.Pairwise (fun a b => a &&& b = 0))
    ∧ (DeleteFlags.values.all isPow2 = true ∧ DeleteFlags.values.Nodup
      ∧ DeleteFlags.values.Pairwise (fun a b => a &&& b = 0)) := by
  decide

/-- C10.  The put-flag `NO_DUP_DATA` and the delete-flag `NO_DUP_DATA` carry
the same numeric bit (both are the engine's `MDB_NODUPDATA` constant), so the
put and delete flag vocabularies are not numerically disjoint even though they
are separate types with different meanings. -/
theorem put_delete_nodupdata_same_bit :
    PutFlags.NO_DUP_DATA = DeleteFlags.NO_DUP_DATA
    ∧ PutFlags.NO_DUP_DATA = MDB_NODUPDATA
    ∧ DeleteFlags.NO_DUP_DATA = MDB_NODUPDATA
    ∧ MDB_NODUPDATA ∈ PutFlags.values
    ∧ MDB_NODUPDATA ∈ DeleteFlags.values := by
  refine ⟨rfl, rfl, rfl, by decide, by decide⟩
